import Mathlib

/-!
# Verification of the caddy2-geocn lookup / cache / hot-swap engine

Shallow embedding of the core of the `ysicing/caddy2-geocn` repository:

* region-string matching of the `geocity` matcher (`src/geocity.go`:
  `matchLocation`, `isAllowed`, `isDenied`);
* the bounded TTL caches (`src/common.go` `Cache.Get`/`Cache.Set`/
  `evictOldest`, and the older `src/geocn.go` `ipCache.set` variant);
* the country matcher's per-address decision (`src/geocn.go` `validSource`);
* the refresh check (`src/geocn.go` `checkNeedUpdate`);
* the database update / reader hot-swap path (`src/geocn.go`
  `updateGeoFile`), instrumented with an event trace so that lock /
  close ordering can be stated;
* the deduplicating lookup coordinator described in the specification
  (not present in the Go sources; modelled from the spec).

Go machine details kept in the model: strings are compared exactly as Go
does (`strings.Contains` is substring containment, `strings.Split` on a
one-character separator, `strings.HasPrefix`); `time.Time`/`time.Duration`
values are modelled as `Int` nanoseconds; `time.Since t = now - t`;
Go maps become association lists whose order stands for the (unspecified)
map iteration order.
-/

namespace GeoCN

/-! ## Go string primitives

All string operations are defined structurally over `List Char` so that
every concrete instance evaluates inside the kernel.  Byte-level (Go) and
char-level (here) string matching agree on valid UTF-8 because a UTF-8
continuation byte can never begin a valid match. -/

/-- `pre` is a prefix of `l`. -/
def isPrefixChars : List Char → List Char → Bool
  | [], _ => true
  | _ :: _, [] => false
  | a :: as, b :: bs => a = b && isPrefixChars as bs

/-- `sub` occurs contiguously inside `l`. -/
def isInfixChars (sub : List Char) : List Char → Bool
  | [] => sub.isEmpty
  | b :: bs => isPrefixChars sub (b :: bs) || isInfixChars sub bs

/-- Go `strings.Contains s sub`. -/
def goContains (s sub : String) : Bool :=
  isInfixChars sub.data s.data

/-- Go `strings.HasPrefix`. -/
def goHasPrefix (s pre : String) : Bool :=
  isPrefixChars pre.data s.data

/-- Go `strings.Split s sep` for a one-character separator, on char lists:
splits at every occurrence of `sep`, keeping empty fields. -/
def splitChars (sep : Char) : List Char → List (List Char)
  | [] => [[]]
  | c :: rest =>
    if c = sep then
      [] :: splitChars sep rest
    else
      match splitChars sep rest with
      | [] => [[c]]
      | h :: t => (c :: h) :: t

/-- Go `strings.Split` on strings (one-character separator). -/
def goSplit (s : String) (sep : Char) : List String :=
  (splitChars sep s.data).map (fun l => ⟨l⟩)

/-- The whitespace class of Go's `unicode.IsSpace` (as used by
`strings.TrimSpace`), restricted to the characters that can occur here. -/
def isGoSpace (c : Char) : Bool :=
  c = ' ' || c = '\t' || c = '\n' || c = '\r' ||
  c = Char.ofNat 0x0B || c = Char.ofNat 0x0C ||
  c = Char.ofNat 0x85 || c = Char.ofNat 0xA0

/-- Go `strings.TrimSpace`. -/
def goTrim (s : String) : String :=
  ⟨((s.data.dropWhile isGoSpace).reverse.dropWhile isGoSpace).reverse⟩

/-- `isHTTPSource` (src/common.go:38): the source is an HTTP(S) URL. -/
def isHTTPSource (source : String) : Bool :=
  goHasPrefix source "http://" || goHasPrefix source "https://"

/-! ## Region matching policy (src/geocity.go) -/

/-- The keyword configuration of a `GeoCity` matcher: the `Provinces`,
`Cities` and `Mode` fields of the `GeoCity` struct (src/geocity.go:39). -/
structure GeoCityCfg where
  provinces : List String
  cities : List String
  mode : String
  deriving Repr, DecidableEq

/-- `GeoCity.isAllowed` (src/geocity.go:746): empty combined configuration
means allow-all; otherwise substring containment in either direction
against the province list, then the city list. -/
def isAllowed (g : GeoCityCfg) (province city : String) : Bool :=
  if g.provinces.length = 0 ∧ g.cities.length = 0 then
    true
  else if g.provinces.any (fun cp => goContains province cp || goContains cp province) then
    true
  else if g.cities.any (fun cc => goContains city cc || goContains cc city) then
    true
  else
    false

/-- `GeoCity.isDenied` (src/geocity.go:770): same two scans as `isAllowed`
but without the empty-configuration short-circuit. -/
def isDenied (g : GeoCityCfg) (province city : String) : Bool :=
  if g.provinces.any (fun cp => goContains province cp || goContains cp province) then
    true
  else if g.cities.any (fun cc => goContains city cc || goContains cc city) then
    true
  else
    false

/-- The record-processing tail of `GeoCity.matchLocation`
(src/geocity.go:696-743): split the raw `ip2region` record on `|`, require
at least 4 fields, trim country / province / city, gate on the domestic
marker `"中国"`, then apply the configured mode.  Lean's `String.trim`
stands for Go's `strings.TrimSpace` (both strip surrounding whitespace;
the records involved carry none). -/
def matchRegion (g : GeoCityCfg) (region : String) : Bool :=
  let parts := goSplit region '|'
  if parts.length < 4 then
    false
  else
    let country := goTrim (parts.getD 0 "")
    let province := goTrim (parts.getD 2 "")
    let city := goTrim (parts.getD 3 "")
    if country ≠ "中国" then
      match g.mode with
      | "allow" => false
      | "deny" => true
      | _ => false
    else
      match g.mode with
      | "allow" => isAllowed g province city
      | "deny" => !(isDenied g province city)
      | _ => false

/-- Classification of an incoming address after `net.ParseIP` and
`checkPrivateIP` (src/geocity.go:656-659, src/common.go:18): `invalid`
is a nil parse, `priv` covers loopback / link-local / private / multicast /
unspecified, and `v4`/`v6` are routable addresses of each family. -/
inductive IPKind where
  | invalid
  | priv
  | v4
  | v6
  deriving Repr, DecidableEq

/-- Mutable context consulted by one `GeoCity.matchLocation` call: the
cache verdict for this address (`none` = miss or cache disabled) and the
two searchers (`none` = nil searcher; otherwise the `SearchByStr` outcome
for this address). -/
structure CitySt where
  cacheResult : Option Bool
  searcherIPv4 : Option (Except String String)
  searcherIPv6 : Option (Except String String)

/-- `GeoCity.matchLocation` (src/geocity.go:656): reject nil / private
addresses, serve a cache hit, pick the searcher for the address family
(nil searcher ⇒ no match), treat a search error as no match, otherwise
decide on the returned record. -/
def matchLocation (g : GeoCityCfg) (st : CitySt) (ip : IPKind) : Bool :=
  match ip with
  | .invalid => false
  | .priv => false
  | .v4 | .v6 =>
    match st.cacheResult with
    | some m => m
    | none =>
      let searcher := match ip with
        | .v4 => st.searcherIPv4
        | _ => st.searcherIPv6
      match searcher with
      | none => false
      | some (.error _) => false
      | some (.ok region) => matchRegion g region

/-! ## Bounded TTL cache (src/common.go:156-219, src/geocn.go:262-318)

The Go map `entries` becomes an association list; its order stands for the
(unspecified) Go map iteration order, so anything proved below holds for
every iteration order.  Timestamps are `Int` nanoseconds; `time.Now()` is
never the zero time, which the theorems record as the hypothesis that all
stored timestamps are positive. -/

/-- One cache entry, `cacheEntry[T]` (src/common.go:163): value plus the
timestamp written by `Set`. -/
structure CEntry (T : Type) where
  key : String
  value : T
  ts : Int
  deriving Repr, DecidableEq

/-- `Cache[T]` (src/common.go:156): entry list, `maxSize`, `ttl`. -/
structure GCache (T : Type) where
  entries : List (CEntry T)
  maxSize : Nat
  ttl : Int
  deriving Repr, DecidableEq

/-- Keys currently stored, in iteration order. -/
def keysOf {T : Type} (l : List (CEntry T)) : List String :=
  l.map (fun e => e.key)

/-- Go map membership test `_, exists := c.entries[key]`. -/
def containsKey {T : Type} (l : List (CEntry T)) (k : String) : Bool :=
  l.any (fun e => e.key == k)

/-- Go map read `entry, exists := c.entries[key]`. -/
def lookupEntry {T : Type} (l : List (CEntry T)) (k : String) : Option (CEntry T) :=
  l.find? (fun e => e.key == k)

/-- `Cache.Get` (src/common.go:178): absent or older than `ttl` means
not found (`time.Since(entry.timestamp) > c.ttl` with
`time.Since ts = now - ts`). -/
def cacheGet {T : Type} (c : GCache T) (k : String) (now : Int) : Option T :=
  match lookupEntry c.entries k with
  | none => none
  | some e => if now - e.ts > c.ttl then none else some e.value

/-- The scanning loop of `Cache.evictOldest` (src/common.go:205):
accumulator `(oldestKey, oldestTime)` starts at `("", 0)`; an entry takes
over when `oldestTime.IsZero() || entry.timestamp.Before(oldestTime)`
(the zero `time.Time` is modelled as the integer 0). -/
def evictScan {T : Type} : List (CEntry T) → String → Int → String × Int
  | [], k, t => (k, t)
  | e :: rest, k, t =>
    if t = 0 ∨ e.ts < t then evictScan rest e.key e.ts else evictScan rest k t

/-- `Cache.evictOldest` (src/common.go:205): scan for the oldest key, then
`delete(c.entries, oldestKey)` unless the scan never picked a key. -/
def evictOldest {T : Type} (l : List (CEntry T)) : List (CEntry T) :=
  let s := evictScan l "" 0
  if s.1 ≠ "" then l.filter (fun e => e.key != s.1) else l

/-- Go map write `c.entries[key] = entry`: overwrite in place when the key
is present, otherwise add the entry. -/
def insertEntry {T : Type} (l : List (CEntry T)) (k : String) (v : T) (now : Int) :
    List (CEntry T) :=
  if containsKey l k then
    l.map (fun e => if e.key == k then ⟨k, v, now⟩ else e)
  else
    l ++ [⟨k, v, now⟩]

/-- `Cache.Set` (src/common.go:191): evict the oldest entry only when the
key is new and the map is at capacity, then insert/overwrite. -/
def cacheSet {T : Type} (c : GCache T) (k : String) (v : T) (now : Int) : GCache T :=
  let es :=
    if ¬ containsKey c.entries k = true ∧ c.entries.length ≥ c.maxSize then
      evictOldest c.entries
    else
      c.entries
  { c with entries := insertEntry es k v now }

/-- `ipCache.set` (src/geocn.go:289) and `cityCache.set`
(src/geocity.go:272): evict the oldest entry whenever the map is at
capacity, with no check that the key is new, then insert/overwrite. -/
def ipCacheSet {T : Type} (c : GCache T) (k : String) (v : T) (now : Int) : GCache T :=
  let es :=
    if c.entries.length ≥ c.maxSize then evictOldest c.entries else c.entries
  { c with entries := insertEntry es k v now }

/-! ## Country matcher per-address decision (src/geocn.go:97-141) -/

/-- Classification of the host string given to `GeoCN.validSource`:
empty, not parseable by `net.ParseIP`, parseable but rejected by
`checkPrivateIP`, or a routable address (carrying the trimmed host string
used as the cache key / query argument). -/
inductive Host where
  | empty
  | unparsable
  | priv
  | valid (key : String)

/-- `GeoCN.validSource` (src/geocn.go:97): reject empty / unparsable /
private hosts; serve a cache hit (`country == "CN"`); with a nil
`dbReader` return false; otherwise query the reader (`none` models both a
lookup error and a record without data) and compare the ISO code with
`"CN"`.  `cacheHit` is the TTL-filtered cache lookup (`none` = miss or
cache disabled), `reader` is `none` when `m.dbReader == nil`.  The
cache-store write on a fresh result does not affect the returned value and
is omitted. -/
def validSource (cacheHit : String → Option String)
    (reader : Option (String → Option String)) (h : Host) : Bool :=
  match h with
  | .empty => false
  | .unparsable => false
  | .priv => false
  | .valid key =>
    match cacheHit key with
    | some country => country == "CN"
    | none =>
      match reader with
      | none => false
      | some lookup =>
        match lookup key with
        | none => false
        | some country => country == "CN"

/-! ## Refresh check (src/geocn.go:342-393) -/

/-- 24 hours in nanoseconds (`24 * time.Hour`). -/
def day24 : Int := 86400000000000

/-- The remote HEAD response seen by `checkNeedUpdate`: status code and the
raw `Last-Modified` header (Go's `Header.Get` yields `""` when absent). -/
structure HeadResp where
  status : Nat
  lastModified : String

/-- Environment of one `GeoCN.checkNeedUpdate` call: the local file's
modification time (`none` = `os.Stat` fails / file absent; the file does
not change during the call, so both `os.Stat` calls in the source see the
same value), the HEAD request outcome (`Except`: transport error), the
`time.Parse http.TimeFormat` oracle for `Last-Modified` values, and the
current time. -/
structure CheckEnv where
  localFile : Option Int
  head : Except String HeadResp
  parseLM : String → Option Int
  now : Int

/-- `GeoCN.checkNeedUpdate` (src/geocn.go:342): non-HTTP sources never
need updates; a missing local file always does; otherwise HEAD the source
(transport error / non-200 propagate as errors), compare a parseable
`Last-Modified` strictly against the local mtime, and without
`Last-Modified` fall back to `time.Since(mtime) >= interval` with a
24-hour default for a non-positive interval. -/
def checkNeedUpdate (source : String) (interval : Int) (env : CheckEnv) :
    Except String Bool :=
  if ¬ (isHTTPSource source = true) then
    .ok false
  else
    match env.localFile with
    | none => .ok true
    | some mtime =>
      match env.head with
      | .error e => .error e
      | .ok resp =>
        if resp.status ≠ 200 then
          .error "HEAD returned non-OK status"
        else if resp.lastModified = "" then
          let itv := if interval ≤ 0 then day24 else interval
          .ok (decide (env.now - mtime ≥ itv))
        else
          match env.parseLM resp.lastModified with
          | none => .error "parse Last-Modified"
          | some remoteTime => .ok (decide (remoteTime > mtime))

/-! ## Database update and reader hot-swap (src/geocn.go:396-439)

`updateGeoFile` is modelled as a state transformer that also emits the
event trace needed to talk about lock/close ordering.  Reader instances
are numbers; file contents are numbers.  `os.Rename(temp, live)` moves the
temp content over the live path. -/

/-- Observable events of one `updateGeoFile` run. -/
inductive Ev where
  | removeTemp
  | lockAcquire
  | lockRelease
  | rename
  | closeReader (id : Nat)
  | assignReader (id : Nat)
  deriving Repr, DecidableEq

/-- Environment of one `updateGeoFile` run against an HTTP source: outcome
of `downloadFile` (downloaded content id on success), of `geoip2.Open` on
the temp file (validation), of `os.Rename`, and of `geoip2.Open` on the
live path after the rename; plus the identities of the two reader
instances those `Open` calls would create. -/
structure UpdEnv where
  dlOk : Bool
  dlContent : Nat
  validOk : Bool
  renameOk : Bool
  openLiveOk : Bool
  tempReaderId : Nat
  newReaderId : Nat

/-- The mutable state `updateGeoFile` acts on: content of the live path,
content of the temp path, and the current `m.dbReader` (`none` = nil). -/
structure UpdSt where
  live : Option Nat
  temp : Option Nat
  reader : Option Nat
  deriving Repr, DecidableEq

/-- `GeoCN.updateGeoFile` (src/geocn.go:396), HTTP-source path (the
non-HTTP path delegates to `loadDatabase` and is outside the claims
below, so the model takes `isHTTPSource source = true` as given):
download to temp (failure ⇒ remove temp, error), validate by opening and
immediately closing a temp reader (failure ⇒ remove temp, error), then
under the write lock: remember the old reader, rename temp over live
(failure ⇒ remove temp, error), reopen the live path (failure ⇒ error,
reader untouched), assign the new reader, close the old reader if any,
release the lock (the deferred unlock runs on every exit path after the
acquire). -/
def updateGeoFile (env : UpdEnv) (st : UpdSt) :
    Except String Unit × UpdSt × List Ev :=
  if ¬ (env.dlOk = true) then
    (.error "download failed", { st with temp := none }, [.removeTemp])
  else
    let st1 : UpdSt := { st with temp := some env.dlContent }
    if ¬ (env.validOk = true) then
      (.error "invalid database file", { st1 with temp := none }, [.removeTemp])
    else
      let evs0 : List Ev := [.closeReader env.tempReaderId, .lockAcquire]
      if ¬ (env.renameOk = true) then
        (.error "replace database file failed", { st1 with temp := none },
          evs0 ++ [.removeTemp, .lockRelease])
      else
        let st2 : UpdSt := { st1 with live := some env.dlContent, temp := none }
        let evs1 := evs0 ++ [.rename]
        if ¬ (env.openLiveOk = true) then
          (.error "open new database file failed", st2, evs1 ++ [.lockRelease])
        else
          let st3 : UpdSt := { st2 with reader := some env.newReaderId }
          let evs2 := evs1 ++ [.assignReader env.newReaderId] ++
            (match st.reader with
             | some o => [.closeReader o]
             | none => []) ++ [.lockRelease]
          (.ok (), st3, evs2)

/-- Number of times reader `r` is closed in a trace. -/
def closeCount (r : Nat) : List Ev → Nat
  | [] => 0
  | .closeReader r' :: rest => (if r' = r then 1 else 0) + closeCount r rest
  | _ :: rest => closeCount r rest

/-- Scan a trace tracking whether the write lock is held; `true` iff every
`closeReader r` event happens while the lock is NOT held.  (`lockAcquire`
and `lockRelease` toggle the flag; the source never nests the lock.) -/
def closesOutsideLock (r : Nat) : List Ev → Bool → Bool
  | [], _ => true
  | .lockAcquire :: rest, _ => closesOutsideLock r rest true
  | .lockRelease :: rest, _ => closesOutsideLock r rest false
  | .closeReader r' :: rest, held =>
    (!(r' = r && held)) && closesOutsideLock r rest held
  | _ :: rest, held => closesOutsideLock r rest held

/-! ## Deduplicated lookup coordinator

Modelled from the spec: §4.2 describes a `Do(key, fn)` coordinator that
collapses concurrent callers of the same key into one execution of the
production function and hands the single result to every waiting caller.
No such component exists under `src/` (the `validSource` call path queries
the reader directly), so the model below follows the specification's
words: per key, the first arriving caller opens an in-flight window and
later arrivals join it; when the production function completes, its result
is delivered to every caller of that window.  Only one key is modelled;
the spec promises no coordination across distinct keys. -/

/-- Coordinator events for one key: a caller arrives, or the in-flight
production function completes with a result. -/
inductive CoOp (R : Type) where
  | arrive (caller : Nat)
  | complete (r : R)

/-- Coordinator state for one key: whether a call is in flight, the
callers waiting on it, the number of production-function executions so
far, and the `(caller, result)` pairs delivered so far. -/
structure CoSt (R : Type) where
  inflight : Bool
  waiters : List Nat
  fnCalls : Nat
  delivered : List (Nat × R)

/-- One coordinator transition. -/
def coStep {R : Type} (st : CoSt R) : CoOp R → CoSt R
  | .arrive c =>
    if st.inflight then
      { st with waiters := st.waiters ++ [c] }
    else
      { st with inflight := true, waiters := [c] }
  | .complete r =>
    if st.inflight then
      { inflight := false, waiters := [],
        fnCalls := st.fnCalls + 1,
        delivered := st.delivered ++ st.waiters.map (fun c => (c, r)) }
    else
      st

/-- Run a sequence of coordinator events. -/
def coRun {R : Type} (st : CoSt R) (ops : List (CoOp R)) : CoSt R :=
  ops.foldl coStep st

/-- The idle coordinator: nothing in flight, nothing delivered. -/
def coIdle {R : Type} : CoSt R := ⟨false, [], 0, []⟩

/-- The specification's notion of "some configured keyword matches": a
province keyword matches the province field by substring containment in
either direction, a city keyword likewise matches the city field (spec
§4.5).  Stated separately from `isAllowed`/`isDenied` so the code's mode
logic can be compared against it. -/
def specKeywordHit (provs cities : List String) (province city : String) : Bool :=
  provs.any (fun kp => goContains province kp || goContains kp province) ||
  cities.any (fun kc => goContains city kc || goContains kc city)

/-! ### Cache lemmas -/

theorem evictScan_spec {T : Type} (l : List (CEntry T)) :
    ∀ (k : String) (t : Int), 0 < t → (∀ e ∈ l, 0 < e.ts) →
      (evictScan l k t = (k, t) ∨ ∃ e ∈ l, evictScan l k t = (e.key, e.ts)) ∧
        (evictScan l k t).2 ≤ t ∧ ∀ e ∈ l, (evictScan l k t).2 ≤ e.ts := by
  induction l with
  | nil =>
    intro k t _ _
    exact ⟨Or.inl rfl, le_refl t, by simp⟩
  | cons e rest ih =>
    intro k t ht hpos
    have hepos : 0 < e.ts := hpos e (List.mem_cons_self e rest)
    have hrest : ∀ x ∈ rest, 0 < x.ts := fun x hx => hpos x (List.mem_cons_of_mem e hx)
    by_cases hc : t = 0 ∨ e.ts < t
    · rw [evictScan, if_pos hc]
      obtain ⟨hmem, hle, hall⟩ := ih e.key e.ts hepos hrest
      have hts : e.ts ≤ t := by omega
      refine ⟨?_, by omega, ?_⟩
      · rcases hmem with h | ⟨x, hx, heq⟩
        · exact Or.inr ⟨e, List.mem_cons_self e rest, h⟩
        · exact Or.inr ⟨x, List.mem_cons_of_mem e hx, heq⟩
      · intro x hx
        rcases List.mem_cons.mp hx with rfl | hx'
        · exact hle
        · exact hall x hx'
    · rw [evictScan, if_neg hc]
      obtain ⟨hmem, hle, hall⟩ := ih k t ht hrest
      have hts : t ≤ e.ts := by omega
      refine ⟨?_, hle, ?_⟩
      · rcases hmem with h | ⟨x, hx, heq⟩
        · exact Or.inl h
        · exact Or.inr ⟨x, List.mem_cons_of_mem e hx, heq⟩
      · intro x hx
        rcases List.mem_cons.mp hx with rfl | hx'
        · omega
        · exact hall x hx'

theorem evictOldest_spec {T : Type} (e : CEntry T) (rest : List (CEntry T))
    (hpos : ∀ x ∈ e :: rest, 0 < x.ts) (hne : ∀ x ∈ e :: rest, x.key ≠ "") :
    ∃ m ∈ e :: rest, (∀ x ∈ e :: rest, m.ts ≤ x.ts) ∧
      evictOldest (e :: rest) = (e :: rest).filter (fun x => x.key != m.key) := by
  have h0 : evictScan (e :: rest) "" 0 = evictScan rest e.key e.ts := by
    rw [evictScan, if_pos (Or.inl rfl)]
  obtain ⟨hmem, hle, hall⟩ :=
    evictScan_spec rest e.key e.ts (hpos e (List.mem_cons_self e rest))
      (fun x hx => hpos x (List.mem_cons_of_mem e hx))
  rcases hmem with heq | ⟨x, hx, heq⟩
  · refine ⟨e, List.mem_cons_self e rest, ?_, ?_⟩
    · intro y hy
      rcases List.mem_cons.mp hy with rfl | hy'
      · exact le_refl _
      · have := hall y hy'
        rw [heq] at this
        exact this
    · unfold evictOldest
      rw [h0, heq]
      simp only
      rw [if_pos (hne e (List.mem_cons_self e rest))]
  · refine ⟨x, List.mem_cons_of_mem e hx, ?_, ?_⟩
    · intro y hy
      rcases List.mem_cons.mp hy with rfl | hy'
      · have := hle
        rw [heq] at this
        exact this
      · have := hall y hy'
        rw [heq] at this
        exact this
    · unfold evictOldest
      rw [h0, heq]
      simp only
      rw [if_pos (hne x (List.mem_cons_of_mem e hx))]

theorem filter_key_eq_self {T : Type} (l : List (CEntry T)) (k : String)
    (h : ∀ x ∈ l, x.key ≠ k) : l.filter (fun x => x.key != k) = l := by
  induction l with
  | nil => rfl
  | cons e rest ih =>
    have he : (e.key != k) = true := by
      simpa using h e (List.mem_cons_self e rest)
    rw [List.filter_cons, if_pos he, ih (fun x hx => h x (List.mem_cons_of_mem e hx))]

theorem filter_erase_length {T : Type} (l : List (CEntry T)) (m : CEntry T)
    (hnd : (keysOf l).Nodup) (hm : m ∈ l) :
    (l.filter (fun x => x.key != m.key)).length + 1 = l.length := by
  induction l with
  | nil => cases hm
  | cons e rest ih =>
    rw [keysOf, List.map_cons, List.nodup_cons] at hnd
    rcases List.mem_cons.mp hm with rfl | hm'
    · have hr : ∀ x ∈ rest, x.key ≠ m.key := by
        intro x hx hkey
        exact hnd.1 (hkey ▸ List.mem_map_of_mem (fun e => e.key) hx)
      rw [List.filter_cons]
      simp only [bne_self_eq_false, if_neg (by simp : ¬ (false = true))]
      rw [filter_key_eq_self rest m.key hr]
      simp
    · have hkey : e.key ≠ m.key := by
        intro hkey
        exact hnd.1 (hkey ▸ List.mem_map_of_mem (fun e => e.key) hm')
      rw [List.filter_cons, if_pos (by simpa using hkey), List.length_cons,
        List.length_cons, ← ih hnd.2 hm']

theorem containsKey_filter_mono {T : Type} (l : List (CEntry T)) (p : CEntry T → Bool)
    (k : String) (h : containsKey l k = false) :
    containsKey (l.filter p) k = false := by
  induction l with
  | nil => rfl
  | cons e rest ih =>
    rw [containsKey, List.any_cons, Bool.or_eq_false_iff] at h
    rw [List.filter_cons]
    by_cases hp : p e = true
    · rw [if_pos hp, containsKey, List.any_cons, h.1, Bool.false_or]
      exact ih h.2
    · rw [if_neg hp]
      exact ih h.2

theorem containsKey_iff {T : Type} (l : List (CEntry T)) (k : String) :
    containsKey l k = true ↔ k ∈ keysOf l := by
  unfold containsKey keysOf
  rw [List.any_eq_true]
  constructor
  · rintro ⟨e, he, hk⟩
    exact (eq_of_beq hk) ▸ List.mem_map_of_mem (fun e => e.key) he
  · intro hk
    obtain ⟨e, he, hk⟩ := List.mem_map.mp hk
    exact ⟨e, he, by simp [hk]⟩

theorem keysOf_insertEntry {T : Type} (l : List (CEntry T)) (k : String)
    (v : T) (now : Int) :
    keysOf (insertEntry l k v now) =
      if containsKey l k = true then keysOf l else keysOf l ++ [k] := by
  unfold insertEntry
  by_cases h : containsKey l k = true
  · rw [if_pos h, if_pos h]
    unfold keysOf
    rw [List.map_map]
    apply List.map_congr_left
    intro e _
    by_cases he : e.key == k
    · simp only [Function.comp_apply, if_pos he]
      exact (eq_of_beq he).symm
    · simp only [Function.comp_apply, if_neg he]
  · rw [if_neg h, if_neg h]
    unfold keysOf
    rw [List.map_append]
    rfl

theorem lookup_insertEntry_self {T : Type} (l : List (CEntry T)) (k : String)
    (v : T) (now : Int) :
    lookupEntry (insertEntry l k v now) k = some ⟨k, v, now⟩ := by
  unfold insertEntry
  by_cases h : containsKey l k = true
  · rw [if_pos h]
    induction l with
    | nil => cases h
    | cons e rest ih =>
      rw [containsKey, List.any_cons, Bool.or_eq_true] at h
      by_cases he : (e.key == k) = true
      · rw [List.map_cons, if_pos he]
        exact List.find?_cons_of_pos _ (by simp)
      · rw [List.map_cons, if_neg he]
        unfold lookupEntry
        rw [List.find?_cons_of_neg (p := fun (x : CEntry T) => x.key == k) _ he]
        rcases h with h | h
        · exact absurd h he
        · exact ih h
  · rw [if_neg h]
    have h' : containsKey l k = false := by
      cases hck : containsKey l k
      · rfl
      · exact absurd hck h
    clear h
    induction l with
    | nil =>
      unfold lookupEntry
      rw [List.nil_append]
      exact List.find?_cons_of_pos _ (by simp)
    | cons e rest ih =>
      rw [containsKey, List.any_cons, Bool.or_eq_false_iff] at h'
      unfold lookupEntry
      rw [List.cons_append,
        List.find?_cons_of_neg (p := fun (x : CEntry T) => x.key == k) _ (by simp [h'.1])]
      exact ih h'.2

theorem containsKey_insertEntry_other {T : Type} (l : List (CEntry T))
    (k k' : String) (v : T) (now : Int) (hkk : k ≠ k') :
    containsKey (insertEntry l k' v now) k = containsKey l k := by
  rw [Bool.eq_iff_iff, containsKey_iff, containsKey_iff, keysOf_insertEntry]
  by_cases h : containsKey l k' = true
  · rw [if_pos h]
  · rw [if_neg h, List.mem_append]
    simp [hkk]

theorem lookupEntry_eq_none {T : Type} (l : List (CEntry T)) (k : String)
    (h : containsKey l k = false) : lookupEntry l k = none := by
  rw [lookupEntry, List.find?_eq_none]
  intro x hx
  rw [containsKey] at h
  have := List.any_eq_false.mp h x hx
  simpa using this

theorem containsKey_evictOldest_mono {T : Type} (l : List (CEntry T)) (k : String)
    (h : containsKey l k = false) : containsKey (evictOldest l) k = false := by
  unfold evictOldest
  by_cases hc : (evictScan l "" 0).1 ≠ ""
  · rw [if_pos hc]
    exact containsKey_filter_mono l _ k h
  · rw [if_neg hc]
    exact h

theorem insertEntry_length {T : Type} (l : List (CEntry T)) (k : String)
    (v : T) (now : Int) :
    (insertEntry l k v now).length =
      if containsKey l k = true then l.length else l.length + 1 := by
  unfold insertEntry
  by_cases h : containsKey l k = true
  · rw [if_pos h, if_pos h, List.length_map]
  · rw [if_neg h, if_neg h, List.length_append, List.length_cons, List.length_nil]

/-! ### Region matching lemmas -/

theorem isDenied_eq_specKeywordHit (provs cities : List String) (m p c : String) :
    isDenied ⟨provs, cities, m⟩ p c = specKeywordHit provs cities p c := by
  unfold isDenied specKeywordHit
  cases h1 : provs.any (fun kp => goContains p kp || goContains kp p) <;>
    cases h2 : cities.any (fun kc => goContains c kc || goContains kc c) <;>
      simp [h1, h2]

theorem isAllowed_eq_specKeywordHit (provs cities : List String) (m p c : String)
    (hne : ¬ (provs = [] ∧ cities = [])) :
    isAllowed ⟨provs, cities, m⟩ p c = specKeywordHit provs cities p c := by
  unfold isAllowed specKeywordHit
  rw [if_neg (by simpa [List.length_eq_zero] using hne)]
  cases h1 : provs.any (fun kp => goContains p kp || goContains kp p) <;>
    cases h2 : cities.any (fun kc => goContains c kc || goContains kc c) <;>
      simp [h1, h2]

theorem isAllowed_empty (provs cities : List String) (m p c : String)
    (h : provs = [] ∧ cities = []) : isAllowed ⟨provs, cities, m⟩ p c = true := by
  unfold isAllowed
  rw [if_pos (by simp [h.1, h.2])]

/-! ## Claim theorems -/

/-- C1 (counterexample): the claim says the keyword-based region matcher
returns no-match for every non-domestic record in both modes; but on the
record `"美国|0|加州|洛杉矶|isp"` in mode `deny` (keywords `北京`/`北京市`
configured, cache miss, live IPv4 searcher), `matchLocation` returns a
match: non-domestic records are matched unconditionally under `deny`
(src/geocity.go:711-717). -/
theorem matchLocation_nondomestic_deny_matches :
    matchLocation ⟨["北京"], ["北京市"], "deny"⟩
      ⟨none, some (.ok "美国|0|加州|洛杉矶|isp"), none⟩ .v4 = true := by
  decide

/-- C1 (amended): for every resolved record with at least 4 fields whose
trimmed country field is not `"中国"`, and every keyword configuration,
the region matcher returns no-match in mode `allow` and a match in mode
`deny`. -/
theorem matchRegion_nondomestic_spec (provs cities : List String) (region : String)
    (hlen : 4 ≤ (goSplit region '|').length)
    (hcountry : goTrim ((goSplit region '|').getD 0 "") ≠ "中国") :
    matchRegion ⟨provs, cities, "allow"⟩ region = false ∧
      matchRegion ⟨provs, cities, "deny"⟩ region = true := by
  constructor <;>
  · simp only [matchRegion]
    rw [if_neg (by omega : ¬ (goSplit region '|').length < 4), if_pos hcountry]

/-- Witness for `matchRegion_nondomestic_spec` at the record
`"美国|0|加州|洛杉矶|isp"` with keywords `["北京"]`. -/
theorem matchRegion_nondomestic_spec_witness :
    matchRegion ⟨["北京"], [], "allow"⟩ "美国|0|加州|洛杉矶|isp" = false ∧
      matchRegion ⟨["北京"], [], "deny"⟩ "美国|0|加州|洛杉矶|isp" = true :=
  matchRegion_nondomestic_spec ["北京"] [] "美国|0|加州|洛杉矶|isp"
    (by decide) (by decide)

/-- C9: for every domestic record (≥ 4 fields, trimmed country `"中国"`):
with an empty combined keyword configuration the matcher matches in both
modes; with a non-empty configuration it matches in mode `allow` exactly
when some keyword matches (substring containment in either direction,
province keywords against the province field, city keywords against the
city field) and in mode `deny` exactly when no keyword matches. -/
theorem matchRegion_domestic_keyword_spec (provs cities : List String) (region : String)
    (hlen : 4 ≤ (goSplit region '|').length)
    (hcountry : goTrim ((goSplit region '|').getD 0 "") = "中国") :
    (provs = [] ∧ cities = [] →
        matchRegion ⟨provs, cities, "allow"⟩ region = true ∧
          matchRegion ⟨provs, cities, "deny"⟩ region = true) ∧
      (¬ (provs = [] ∧ cities = []) →
        matchRegion ⟨provs, cities, "allow"⟩ region =
            specKeywordHit provs cities (goTrim ((goSplit region '|').getD 2 ""))
              (goTrim ((goSplit region '|').getD 3 "")) ∧
          matchRegion ⟨provs, cities, "deny"⟩ region =
            !(specKeywordHit provs cities (goTrim ((goSplit region '|').getD 2 ""))
              (goTrim ((goSplit region '|').getD 3 "")))) := by
  constructor
  · intro hemp
    obtain ⟨rfl, rfl⟩ := hemp
    constructor
    · simp only [matchRegion]
      rw [if_neg (by omega : ¬ (goSplit region '|').length < 4),
        if_neg (fun h => h hcountry)]
      exact isAllowed_empty [] [] "allow" _ _ ⟨rfl, rfl⟩
    · simp only [matchRegion]
      rw [if_neg (by omega : ¬ (goSplit region '|').length < 4),
        if_neg (fun h => h hcountry)]
      show (!(isDenied ⟨[], [], "deny"⟩ _ _)) = true
      rw [isDenied_eq_specKeywordHit]
      rfl
  · intro hne
    constructor
    · simp only [matchRegion]
      rw [if_neg (by omega : ¬ (goSplit region '|').length < 4),
        if_neg (fun h => h hcountry)]
      exact isAllowed_eq_specKeywordHit provs cities "allow" _ _ hne
    · simp only [matchRegion]
      rw [if_neg (by omega : ¬ (goSplit region '|').length < 4),
        if_neg (fun h => h hcountry)]
      show (!(isDenied ⟨provs, cities, "deny"⟩ _ _)) = _
      rw [isDenied_eq_specKeywordHit]

/-- Witness for `matchRegion_domestic_keyword_spec` at the record
`"中国|0|北京|北京市|联通"`, once with the empty configuration and once
with keywords `["北京"]`. -/
theorem matchRegion_domestic_keyword_spec_witness :
    (matchRegion ⟨[], [], "allow"⟩ "中国|0|北京|北京市|联通" = true ∧
        matchRegion ⟨[], [], "deny"⟩ "中国|0|北京|北京市|联通" = true) ∧
      (matchRegion ⟨["北京"], [], "allow"⟩ "中国|0|北京|北京市|联通" =
          specKeywordHit ["北京"] [] "北京" "北京市" ∧
        matchRegion ⟨["北京"], [], "deny"⟩ "中国|0|北京|北京市|联通" =
          !(specKeywordHit ["北京"] [] "北京" "北京市")) :=
  ⟨(matchRegion_domestic_keyword_spec [] [] "中国|0|北京|北京市|联通"
      (by decide) (by decide)).1 ⟨rfl, rfl⟩,
    (matchRegion_domestic_keyword_spec ["北京"] [] "中国|0|北京|北京市|联通"
      (by decide) (by decide)).2 (by simp)⟩

/-- C10: for every domestic record and every configuration with a
non-empty combined keyword list, the decision in mode `deny` is the
boolean negation of the decision in mode `allow`. -/
theorem matchRegion_deny_negates_allow (provs cities : List String) (region : String)
    (hne : ¬ (provs = [] ∧ cities = []))
    (hlen : 4 ≤ (goSplit region '|').length)
    (hcountry : goTrim ((goSplit region '|').getD 0 "") = "中国") :
    matchRegion ⟨provs, cities, "deny"⟩ region =
      !(matchRegion ⟨provs, cities, "allow"⟩ region) := by
  simp only [matchRegion]
  rw [if_neg (by omega : ¬ (goSplit region '|').length < 4),
    if_neg (fun h => h hcountry),
    if_neg (by omega : ¬ (goSplit region '|').length < 4),
    if_neg (fun h => h hcountry)]
  rw [isDenied_eq_specKeywordHit, isAllowed_eq_specKeywordHit _ _ _ _ _ hne]

/-- Witness for `matchRegion_deny_negates_allow` at the record
`"中国|0|北京|北京市|联通"` with keywords `["上海"]`. -/
theorem matchRegion_deny_negates_allow_witness :
    matchRegion ⟨["上海"], [], "deny"⟩ "中国|0|北京|北京市|联通" =
      !(matchRegion ⟨["上海"], [], "allow"⟩ "中国|0|北京|北京市|联通") :=
  matchRegion_deny_negates_allow ["上海"] [] "中国|0|北京|北京市|联通"
    (by simp) (by decide) (by decide)

/-- C3 (counterexample): the claim says a `Set` on a key already present
overwrites without evicting any entry; but `ipCache.set`
(src/geocn.go:289) evicts whenever the map is at capacity, with no
presence check.  With `maxSize = 2`, entries `a` (timestamp 1) and `b`
(timestamp 2), setting the already-present key `b` evicts `a`. -/
theorem ipCacheSet_existing_key_evicts :
    containsKey ((ipCacheSet (⟨[⟨"a", 1, 1⟩, ⟨"b", 2, 2⟩], 2, 1000⟩ : GCache Nat)
        "b" 3 5).entries) "a" = false ∧
      containsKey ([⟨"a", 1, 1⟩, ⟨"b", 2, 2⟩] : List (CEntry Nat)) "a" = true ∧
      containsKey ([⟨"a", 1, 1⟩, ⟨"b", 2, 2⟩] : List (CEntry Nat)) "b" = true ∧
      (ipCacheSet (⟨[⟨"a", 1, 1⟩, ⟨"b", 2, 2⟩], 2, 1000⟩ : GCache Nat)
        "b" 3 5).entries = [⟨"b", 3, 5⟩] := by
  decide

/-- C3 (amended): for the generic `Cache.Set` (src/common.go:191), over
caches with pairwise-distinct non-empty keys, positive timestamps and
positive capacity: a `Set` of a present key overwrites without evicting
(the key multiset is unchanged); a `Set` of a new key at capacity first
evicts exactly one entry of minimal timestamp and then appends the new
entry; and `len(entries) ≤ maxSize` is preserved.  The older
`ipCache.set`/`cityCache.set` variant instead evicts whenever the map is
at capacity, even when the key is already present. -/
theorem cacheSet_eviction_spec {T : Type} (c : GCache T) (k : String) (v : T) (t0 : Int)
    (hnd : (keysOf c.entries).Nodup)
    (hpos : ∀ e ∈ c.entries, 0 < e.ts)
    (hne : ∀ e ∈ c.entries, e.key ≠ "")
    (hmax : 1 ≤ c.maxSize) :
    (containsKey c.entries k = true →
        keysOf ((cacheSet c k v t0).entries) = keysOf c.entries) ∧
      (containsKey c.entries k = false → c.entries.length = c.maxSize →
        ∃ m ∈ c.entries, (∀ e ∈ c.entries, m.ts ≤ e.ts) ∧
          (cacheSet c k v t0).entries =
            c.entries.filter (fun e => e.key != m.key) ++ [⟨k, v, t0⟩]) ∧
      (c.entries.length ≤ c.maxSize →
        (cacheSet c k v t0).entries.length ≤ c.maxSize) := by
  refine ⟨?_, ?_, ?_⟩
  · intro hk
    unfold cacheSet
    simp only
    rw [if_neg (by simp [hk])]
    rw [keysOf_insertEntry, if_pos hk]
  · intro hk hlen
    unfold cacheSet
    simp only
    rw [if_pos ⟨by simp [hk], by omega⟩]
    match hent : c.entries, hlen with
    | e :: rest, _ =>
      obtain ⟨m, hm, hmin, heq⟩ :=
        evictOldest_spec e rest (hent ▸ hpos) (hent ▸ hne)
      refine ⟨m, hm, hmin, ?_⟩
      rw [heq]
      unfold insertEntry
      rw [if_neg (by
        rw [← heq]
        simp [containsKey_evictOldest_mono _ _ (hent ▸ hk)])]
    | [], h => exact absurd h.symm (by simp; omega)
  · intro hlen
    by_cases hk : containsKey c.entries k = true
    · unfold cacheSet
      simp only
      rw [if_neg (by simp [hk]), insertEntry_length, if_pos hk]
      exact hlen
    · have hk' : containsKey c.entries k = false := by
        cases h : containsKey c.entries k
        · rfl
        · exact absurd h hk
      by_cases hfull : c.entries.length ≥ c.maxSize
      · have hlen' : c.entries.length = c.maxSize := by omega
        unfold cacheSet
        simp only
        rw [if_pos ⟨by simp [hk'], hfull⟩]
        rw [insertEntry_length,
          if_neg (by simp [containsKey_evictOldest_mono _ _ hk'])]
        match hent : c.entries, hlen' with
        | e :: rest, _ =>
          obtain ⟨m, hm, _, heq⟩ :=
            evictOldest_spec e rest (hent ▸ hpos) (hent ▸ hne)
          rw [heq]
          have := filter_erase_length (e :: rest) m (hent ▸ hnd) hm
          omega
        | [], h => exact absurd h.symm (by simp; omega)
      · unfold cacheSet
        simp only
        rw [if_neg (by intro h; exact hfull h.2)]
        rw [insertEntry_length, if_neg (by simp [hk'])]
        omega

/-- Witness for `cacheSet_eviction_spec` on a two-entry cache at capacity
(`maxSize = 2`, keys `x` and `y`, `y` oldest): overwrite of `x`, insertion
of the fresh key `z`, and the size bound. -/
theorem cacheSet_eviction_spec_witness :
    (containsKey ([⟨"x", 10, 5⟩, ⟨"y", 20, 3⟩] : List (CEntry Nat)) "x" = true →
        keysOf ((cacheSet (⟨[⟨"x", 10, 5⟩, ⟨"y", 20, 3⟩], 2, 100⟩ : GCache Nat)
          "x" 11 7).entries) = keysOf ([⟨"x", 10, 5⟩, ⟨"y", 20, 3⟩] : List (CEntry Nat))) ∧
      ((∃ m ∈ ([⟨"x", 10, 5⟩, ⟨"y", 20, 3⟩] : List (CEntry Nat)),
          (∀ e ∈ ([⟨"x", 10, 5⟩, ⟨"y", 20, 3⟩] : List (CEntry Nat)), m.ts ≤ e.ts) ∧
          (cacheSet (⟨[⟨"x", 10, 5⟩, ⟨"y", 20, 3⟩], 2, 100⟩ : GCache Nat)
              "z" 1 7).entries =
            ([⟨"x", 10, 5⟩, ⟨"y", 20, 3⟩] : List (CEntry Nat)).filter
              (fun e => e.key != m.key) ++ [⟨"z", 1, 7⟩])) ∧
      (cacheSet (⟨[⟨"x", 10, 5⟩, ⟨"y", 20, 3⟩], 2, 100⟩ : GCache Nat)
          "z" 1 7).entries.length ≤ 2 :=
  ⟨(cacheSet_eviction_spec (⟨[⟨"x", 10, 5⟩, ⟨"y", 20, 3⟩], 2, 100⟩ : GCache Nat)
      "x" 11 7 (by decide) (by decide) (by decide) (by decide)).1,
    (cacheSet_eviction_spec (⟨[⟨"x", 10, 5⟩, ⟨"y", 20, 3⟩], 2, 100⟩ : GCache Nat)
      "z" 1 7 (by decide) (by decide) (by decide) (by decide)).2.1
      (by decide) (by decide),
    (cacheSet_eviction_spec (⟨[⟨"x", 10, 5⟩, ⟨"y", 20, 3⟩], 2, 100⟩ : GCache Nat)
      "z" 1 7 (by decide) (by decide) (by decide) (by decide)).2.2 (by decide)⟩

/-- C8 (counterexample): the claim says the match operation resolves to
no-match whenever the reader needed for the address is nil; but
`validSource` (src/geocn.go:107-112) serves the cache before the nil
check, so with `dbReader == nil` and a cached `"CN"` verdict for
`1.2.3.4` it returns a match. -/
theorem validSource_nil_reader_cached_match :
    validSource (fun k => if k = "1.2.3.4" then some "CN" else none) none
      (.valid "1.2.3.4") = true := by
  decide

/-- C8 (amended): `validSource` resolves to no-match (and, returning a
bare bool, can propagate no error) for an empty host, an unparsable host,
a private/loopback/link-local/multicast/unspecified address, and for a
nil reader provided the cache holds no entry for the address; a cached
verdict is served even when the reader is nil. -/
theorem validSource_degrade_spec (cacheHit : String → Option String)
    (reader : Option (String → Option String)) (key : String) :
    validSource cacheHit reader .empty = false ∧
      validSource cacheHit reader .unparsable = false ∧
      validSource cacheHit reader .priv = false ∧
      (cacheHit key = none → validSource cacheHit none (.valid key) = false) := by
  refine ⟨rfl, rfl, rfl, ?_⟩
  intro hmiss
  simp [validSource, hmiss]

/-- Witness for `validSource_degrade_spec` with an empty cache and a nil
reader. -/
theorem validSource_degrade_spec_witness :
    validSource (fun _ => none) none .empty = false ∧
      validSource (fun _ => none) none .unparsable = false ∧
      validSource (fun _ => none) none .priv = false ∧
      validSource (fun _ => none) none (.valid "1.2.3.4") = false :=
  ⟨(validSource_degrade_spec (fun _ => none) none "1.2.3.4").1,
    (validSource_degrade_spec (fun _ => none) none "1.2.3.4").2.1,
    (validSource_degrade_spec (fun _ => none) none "1.2.3.4").2.2.1,
    (validSource_degrade_spec (fun _ => none) none "1.2.3.4").2.2.2 rfl⟩

/-- C7 (counterexample): the claim says `checkNeedUpdate` returns true
whenever the local file is absent; but for a non-HTTP (local path) source
the function returns false before ever looking at the local file
(src/geocn.go:343-346), so with the local file absent it still reports no
update needed. -/
theorem checkNeedUpdate_local_source_absent_file :
    checkNeedUpdate "/var/db/Country.mmdb" 3600
      ⟨none, .ok ⟨200, ""⟩, fun _ => none, 0⟩ = .ok false := rfl

/-- C7 (amended): for a non-HTTP source `checkNeedUpdate` returns false
regardless of the local file; for an HTTP source an absent local file
means update needed; with a 200 HEAD response carrying a parseable
`Last-Modified` the answer is `remoteTime` strictly after the local
mtime; and with a 200 response lacking `Last-Modified` the answer is
`now - mtime ≥ interval`, with 24 hours substituted for a non-positive
interval. -/
theorem checkNeedUpdate_spec (source : String) (interval : Int) (env : CheckEnv) :
    (isHTTPSource source = false → checkNeedUpdate source interval env = .ok false) ∧
      (isHTTPSource source = true → env.localFile = none →
        checkNeedUpdate source interval env = .ok true) ∧
      (∀ mtime resp remoteTime, isHTTPSource source = true →
        env.localFile = some mtime → env.head = .ok resp → resp.status = 200 →
        resp.lastModified ≠ "" → env.parseLM resp.lastModified = some remoteTime →
        checkNeedUpdate source interval env = .ok (decide (remoteTime > mtime))) ∧
      (∀ mtime resp, isHTTPSource source = true →
        env.localFile = some mtime → env.head = .ok resp → resp.status = 200 →
        resp.lastModified = "" →
        checkNeedUpdate source interval env =
          .ok (decide (env.now - mtime ≥ (if interval ≤ 0 then day24 else interval)))) := by
  refine ⟨?_, ?_, ?_, ?_⟩
  · intro hsrc
    unfold checkNeedUpdate
    rw [if_pos (by simp [hsrc])]
  · intro hsrc hlocal
    unfold checkNeedUpdate
    rw [if_neg (by simp [hsrc]), hlocal]
  · intro mtime resp remoteTime hsrc hlocal hhead hstatus hlm hparse
    unfold checkNeedUpdate
    rw [if_neg (by simp [hsrc]), hlocal, hhead]
    simp only
    rw [if_neg (by simp [hstatus]), if_neg hlm, hparse]
  · intro mtime resp hsrc hlocal hhead hstatus hlm
    unfold checkNeedUpdate
    rw [if_neg (by simp [hsrc]), hlocal, hhead]
    simp only
    rw [if_neg (by simp [hstatus]), if_pos hlm]

/-- Witness for `checkNeedUpdate_spec`: a local-path source with the file
absent, an HTTP source with the file absent, an HTTP source with a newer
parseable `Last-Modified`, and an HTTP source without `Last-Modified`
whose file is older than the interval. -/
theorem checkNeedUpdate_spec_witness :
    checkNeedUpdate "/var/db/x.mmdb" 50
        ⟨none, .ok ⟨200, ""⟩, fun _ => none, 0⟩ = .ok false ∧
      checkNeedUpdate "https://example.com/x.mmdb" 50
        ⟨none, .ok ⟨200, ""⟩, fun _ => none, 0⟩ = .ok true ∧
      checkNeedUpdate "https://example.com/x.mmdb" 50
        ⟨some 10, .ok ⟨200, "LM"⟩, fun _ => some 30, 100⟩ = .ok true ∧
      checkNeedUpdate "https://example.com/x.mmdb" 50
        ⟨some 10, .ok ⟨200, ""⟩, fun _ => none, 100⟩ = .ok true :=
  ⟨(checkNeedUpdate_spec "/var/db/x.mmdb" 50
      ⟨none, .ok ⟨200, ""⟩, fun _ => none, 0⟩).1 (by decide),
    (checkNeedUpdate_spec "https://example.com/x.mmdb" 50
      ⟨none, .ok ⟨200, ""⟩, fun _ => none, 0⟩).2.1 (by decide) rfl,
    by
      have := (checkNeedUpdate_spec "https://example.com/x.mmdb" 50
        ⟨some 10, .ok ⟨200, "LM"⟩, fun _ => some 30, 100⟩).2.2.1
        10 ⟨200, "LM"⟩ 30 (by decide) rfl rfl rfl (by decide) rfl
      simpa using this,
    by
      have := (checkNeedUpdate_spec "https://example.com/x.mmdb" 50
        ⟨some 10, .ok ⟨200, ""⟩, fun _ => none, 100⟩).2.2.2
        10 ⟨200, ""⟩ (by decide) rfl rfl rfl rfl
      simpa using this⟩

/-- Arrivals during an in-flight window only append waiters. -/
theorem coRun_arrivals {R : Type} (cs : List Nat) :
    ∀ st : CoSt R, st.inflight = true →
      coRun st (cs.map CoOp.arrive) = { st with waiters := st.waiters ++ cs } := by
  induction cs with
  | nil =>
    intro st _
    simp [coRun]
  | cons c cs' ih =>
    intro st hfl
    rw [List.map_cons, coRun, List.foldl_cons]
    have hstep : coStep st (CoOp.arrive c) = { st with waiters := st.waiters ++ [c] } := by
      simp [coStep, hfl]
    rw [hstep, ← coRun, ih { st with waiters := st.waiters ++ [c] } hfl]
    simp

/-- C2: for every non-empty set of callers arriving with the same key
while nothing is in flight, followed by the completion of the production
function with result `r`, the coordinator executes the production
function exactly once, every caller is delivered `(caller, r)`, and every
delivered result equals `r`. -/
theorem coordinator_single_flight {R : Type} (callers : List Nat) (r : R)
    (hne : callers ≠ []) :
    (coRun coIdle (callers.map CoOp.arrive ++ [CoOp.complete r])).fnCalls = 1 ∧
      (∀ c ∈ callers,
        (c, r) ∈ (coRun coIdle (callers.map CoOp.arrive ++ [CoOp.complete r])).delivered) ∧
      (∀ p ∈ (coRun coIdle (callers.map CoOp.arrive ++ [CoOp.complete r])).delivered,
        p.2 = r) := by
  match callers, hne with
  | c :: cs, _ =>
    have h1 : coStep (coIdle : CoSt R) (CoOp.arrive c) =
        ({ inflight := true, waiters := [c], fnCalls := 0, delivered := [] } : CoSt R) := by
      simp [coStep, coIdle]
    have h2 : coRun (coIdle : CoSt R) ((c :: cs).map CoOp.arrive ++ [CoOp.complete r]) =
        coStep (coRun (coStep coIdle (CoOp.arrive c)) (cs.map CoOp.arrive))
          (CoOp.complete r) := by
      rw [coRun, List.map_cons, List.cons_append, List.foldl_cons, List.foldl_append]
      rfl
    have hfinal : coRun (coIdle : CoSt R) ((c :: cs).map CoOp.arrive ++ [CoOp.complete r]) =
        { inflight := false, waiters := [], fnCalls := 1,
          delivered := (c :: cs).map (fun x => (x, r)) } := by
      rw [h2, h1, coRun_arrivals cs _ rfl]
      simp [coStep]
    rw [hfinal]
    refine ⟨rfl, ?_, ?_⟩
    · intro x hx
      exact List.mem_map_of_mem (fun x => (x, r)) hx
    · intro p hp
      obtain ⟨x, _, hx⟩ := List.mem_map.mp hp
      rw [← hx]

/-- Witness for `coordinator_single_flight`: three callers, result 42. -/
theorem coordinator_single_flight_witness :
    (coRun coIdle ([1, 2, 3].map CoOp.arrive ++ [CoOp.complete 42])).fnCalls = 1 ∧
      (∀ c ∈ [1, 2, 3],
        (c, 42) ∈ (coRun coIdle ([1, 2, 3].map CoOp.arrive ++
          [CoOp.complete 42])).delivered) ∧
      (∀ p ∈ (coRun coIdle ([1, 2, 3].map CoOp.arrive ++
          [CoOp.complete 42])).delivered, p.2 = 42) :=
  coordinator_single_flight [1, 2, 3] 42 (by simp)

/-- C6: when the download fails or the downloaded temp file is not a
valid database, `updateGeoFile` (src/geocn.go:402-414) returns an error,
the temporary file is removed, and both the live database file and the
in-memory reader are unchanged. -/
theorem updateGeoFile_failure_preserves (env : UpdEnv) (st : UpdSt)
    (hfail : env.dlOk = false ∨ env.validOk = false) :
    (∃ e, (updateGeoFile env st).1 = .error e) ∧
      (updateGeoFile env st).2.1.live = st.live ∧
      (updateGeoFile env st).2.1.reader = st.reader ∧
      (updateGeoFile env st).2.1.temp = none := by
  by_cases hdl : env.dlOk = true
  · have hva : env.validOk = false := by
      rcases hfail with h | h
      · rw [h] at hdl; cases hdl
      · exact h
    unfold updateGeoFile
    rw [if_neg (by simp [hdl]), if_pos (by simp [hva])]
    exact ⟨⟨_, rfl⟩, rfl, rfl, rfl⟩
  · unfold updateGeoFile
    rw [if_pos hdl]
    exact ⟨⟨_, rfl⟩, rfl, rfl, rfl⟩

/-- Witness for `updateGeoFile_failure_preserves`: a failed download with
a live file `9`, a stale temp file `8`, and reader `7` in place. -/
theorem updateGeoFile_failure_preserves_witness :
    (∃ e, (updateGeoFile ⟨false, 0, false, false, false, 1, 2⟩
        ⟨some 9, some 8, some 7⟩).1 = .error e) ∧
      (updateGeoFile ⟨false, 0, false, false, false, 1, 2⟩
        ⟨some 9, some 8, some 7⟩).2.1.live = some 9 ∧
      (updateGeoFile ⟨false, 0, false, false, false, 1, 2⟩
        ⟨some 9, some 8, some 7⟩).2.1.reader = some 7 ∧
      (updateGeoFile ⟨false, 0, false, false, false, 1, 2⟩
        ⟨some 9, some 8, some 7⟩).2.1.temp = none :=
  updateGeoFile_failure_preserves ⟨false, 0, false, false, false, 1, 2⟩
    ⟨some 9, some 8, some 7⟩ (Or.inl rfl)

/-- C5 (counterexample): the claim says a replaced reader is never closed
while the handle's read-write lock is held; but on a successful update
(reader `7` replaced by `2`) the `oldSearcher.Close()` happens between
`lock.Lock()` and the deferred `lock.Unlock()` (src/geocn.go:416-434):
the run succeeds, reader `7` is closed exactly once, and that close is
not outside the lock. -/
theorem updateGeoFile_close_inside_lock :
    (updateGeoFile ⟨true, 5, true, true, true, 1, 2⟩ ⟨some 9, none, some 7⟩).1 =
        .ok () ∧
      closeCount 7
        (updateGeoFile ⟨true, 5, true, true, true, 1, 2⟩ ⟨some 9, none, some 7⟩).2.2 = 1 ∧
      closesOutsideLock 7
        (updateGeoFile ⟨true, 5, true, true, true, 1, 2⟩ ⟨some 9, none, some 7⟩).2.2
        false = false :=
  ⟨rfl, rfl, rfl⟩

/-- C5 (amended): in every run of the update path with a live reader `o`
(the validation and replacement readers being distinct instances from
`o`): on success the replaced reader is closed exactly once — inside the
write-locked section, not outside it — and the new reader is assigned; on
any failure, in particular when reopening after the rename fails, the
previous reader stays assigned and is not closed. -/
theorem updateGeoFile_swap_spec (env : UpdEnv) (st : UpdSt) (o : Nat)
    (hold : st.reader = some o)
    (htemp : env.tempReaderId ≠ o) (hnew : env.newReaderId ≠ o) :
    ((updateGeoFile env st).1 = .ok () →
        closeCount o (updateGeoFile env st).2.2 = 1 ∧
          closesOutsideLock o (updateGeoFile env st).2.2 false = false ∧
          (updateGeoFile env st).2.1.reader = some env.newReaderId) ∧
      (∀ e, (updateGeoFile env st).1 = .error e →
        closeCount o (updateGeoFile env st).2.2 = 0 ∧
          (updateGeoFile env st).2.1.reader = some o) := by
  by_cases hdl : env.dlOk = true
  · by_cases hva : env.validOk = true
    · by_cases hrn : env.renameOk = true
      · by_cases hop : env.openLiveOk = true
        · -- success path
          unfold updateGeoFile
          rw [if_neg (by simp [hdl]), if_neg (by simp [hva]),
            if_neg (by simp [hrn]), if_neg (by simp [hop]), hold]
          constructor
          · intro _
            refine ⟨?_, ?_, rfl⟩
            · simp [closeCount, htemp]
            · simp [closesOutsideLock, htemp]
          · intro e he
            cases he
        · unfold updateGeoFile
          rw [if_neg (by simp [hdl]), if_neg (by simp [hva]),
            if_neg (by simp [hrn]), if_pos (by simp [hop])]
          constructor
          · intro h
            cases h
          · intro e _
            exact ⟨by simp [closeCount, htemp], hold⟩
      · unfold updateGeoFile
        rw [if_neg (by simp [hdl]), if_neg (by simp [hva]),
          if_pos (by simp [hrn])]
        constructor
        · intro h
          cases h
        · intro e _
          exact ⟨by simp [closeCount, htemp], hold⟩
    · unfold updateGeoFile
      rw [if_neg (by simp [hdl]), if_pos (by simp [hva])]
      constructor
      · intro h
        cases h
      · intro e _
        exact ⟨by simp [closeCount], hold⟩
  · unfold updateGeoFile
    rw [if_pos hdl]
    constructor
    · intro h
      cases h
    · intro e _
      exact ⟨by simp [closeCount], hold⟩

/-- Witness for `updateGeoFile_swap_spec`: a successful swap replacing
reader `7` by reader `2`, and a run whose reopen-after-rename fails. -/
theorem updateGeoFile_swap_spec_witness :
    (closeCount 7
        (updateGeoFile ⟨true, 5, true, true, true, 1, 2⟩ ⟨some 9, none, some 7⟩).2.2 = 1 ∧
      closesOutsideLock 7
        (updateGeoFile ⟨true, 5, true, true, true, 1, 2⟩ ⟨some 9, none, some 7⟩).2.2
        false = false ∧
      (updateGeoFile ⟨true, 5, true, true, true, 1, 2⟩
        ⟨some 9, none, some 7⟩).2.1.reader = some 2) ∧
      (closeCount 7
        (updateGeoFile ⟨true, 5, true, true, false, 1, 2⟩ ⟨some 9, none, some 7⟩).2.2 = 0 ∧
      (updateGeoFile ⟨true, 5, true, true, false, 1, 2⟩
        ⟨some 9, none, some 7⟩).2.1.reader = some 7) :=
  ⟨(updateGeoFile_swap_spec ⟨true, 5, true, true, true, 1, 2⟩ ⟨some 9, none, some 7⟩ 7
      rfl (by decide) (by decide)).1 rfl,
    (updateGeoFile_swap_spec ⟨true, 5, true, true, false, 1, 2⟩ ⟨some 9, none, some 7⟩ 7
      rfl (by decide) (by decide)).2 "open new database file failed" rfl⟩

/-- C4: `Cache.Get` (src/common.go:178) never finds an absent key, and a
`Set` of a different key never makes it appear; immediately after
`Set(key, value)` the key is found with that value while
`now - timestamp ≤ ttl`; and once `now - timestamp > ttl` the key is
reported not-found even though no sweep removed the entry. -/
theorem cacheGet_ttl_spec {T : Type} (c : GCache T) (k k' : String) (v v' : T)
    (now t0 t1 : Int) :
    (containsKey c.entries k = false → cacheGet c k now = none) ∧
      (containsKey c.entries k = false → k ≠ k' →
        containsKey ((cacheSet c k' v' t1).entries) k = false) ∧
      (now - t0 ≤ c.ttl → cacheGet (cacheSet c k v t0) k now = some v) ∧
      (now - t0 > c.ttl → cacheGet (cacheSet c k v t0) k now = none) := by
  refine ⟨?_, ?_, ?_, ?_⟩
  · intro hk
    unfold cacheGet
    rw [lookupEntry_eq_none c.entries k hk]
  · intro hk hkk
    unfold cacheSet
    simp only
    rw [containsKey_insertEntry_other _ _ _ _ _ hkk]
    by_cases hc : ¬ containsKey c.entries k' = true ∧ c.entries.length ≥ c.maxSize
    · rw [if_pos hc]
      exact containsKey_evictOldest_mono _ _ hk
    · rw [if_neg hc]
      exact hk
  · intro htl
    unfold cacheGet
    have : lookupEntry ((cacheSet c k v t0).entries) k = some ⟨k, v, t0⟩ := by
      unfold cacheSet
      simp only
      exact lookup_insertEntry_self _ _ _ _
    rw [this]
    simp only
    rw [if_neg (by simp only [cacheSet]; omega)]
  · intro htl
    unfold cacheGet
    have : lookupEntry ((cacheSet c k v t0).entries) k = some ⟨k, v, t0⟩ := by
      unfold cacheSet
      simp only
      exact lookup_insertEntry_self _ _ _ _
    rw [this]
    simp only
    rw [if_pos (by simp only [cacheSet]; omega)]

/-- Witness for `cacheGet_ttl_spec` on an empty cache (`ttl = 100`):
lookups of a never-inserted key miss, a `Set` of another key does not
create it, a fresh `Set` is visible at age 40, and is gone at age 101. -/
theorem cacheGet_ttl_spec_witness :
    (cacheGet (⟨[], 10, 100⟩ : GCache Nat) "1.2.3.4" 50 = none) ∧
      (containsKey ((cacheSet (⟨[], 10, 100⟩ : GCache Nat) "5.6.7.8" 2 20).entries)
        "1.2.3.4" = false) ∧
      (cacheGet (cacheSet (⟨[], 10, 100⟩ : GCache Nat) "1.2.3.4" 1 10) "1.2.3.4" 50 =
        some 1) ∧
      (cacheGet (cacheSet (⟨[], 10, 100⟩ : GCache Nat) "1.2.3.4" 1 10) "1.2.3.4" 111 =
        none) :=
  ⟨(cacheGet_ttl_spec (⟨[], 10, 100⟩ : GCache Nat) "1.2.3.4" "5.6.7.8" 1 2 50 10 20).1
      (by decide),
    (cacheGet_ttl_spec (⟨[], 10, 100⟩ : GCache Nat) "1.2.3.4" "5.6.7.8" 1 2 50 10 20).2.1
      (by decide) (by decide),
    (cacheGet_ttl_spec (⟨[], 10, 100⟩ : GCache Nat) "1.2.3.4" "5.6.7.8" 1 2 50 10 20).2.2.1
      (by decide),
    (cacheGet_ttl_spec (⟨[], 10, 100⟩ : GCache Nat) "1.2.3.4" "5.6.7.8" 1 2 111 10 20).2.2.2
      (by decide)⟩

end GeoCN
